import Mathlib

/-!
Verification of the AffectionMap analysis core (`affection_map/analysis.py`)
and its profile import helpers (`affection_map/io.py`, `affection_map/profile_io.py`).

Python floats are modelled as exact rationals (`ℚ`); a float value that may be
NaN (the "undefined" sentinel) is modelled as `Option ℚ` with `none` standing
for a non-finite value.  Statistical results that involve square roots live in
`ℝ`.  A Python function that can raise is modelled as returning
`Except String _`, the error string following the exception message in the
source.  NumPy arrays are modelled as `List ℚ` (all inputs in scope are 1-D).
-/

/-- The fixed category list from `analysis.py`. -/
def CATEGORIES : List String :=
  ["Words of Affirmation", "Acts of Service", "Receiving Gifts",
   "Quality Time", "Physical Touch"]

/-- `PersonProfile` dataclass from `analysis.py`: a name plus giving/receiving vectors. -/
structure PersonProfile where
  name : String
  giving : List ℚ
  receiving : List ℚ

/-- Arithmetic mean, as computed by `np.mean` (sum divided by length). -/
def mean (xs : List ℚ) : ℚ := xs.sum / (xs.length : ℚ)

/-- The mean-centered vector `xs - mean(xs)`. -/
def centered (xs : List ℚ) : List ℚ := xs.map (fun v => v - mean xs)

/-- Elementwise dot product of two vectors (`np.dot` on equal-length 1-D arrays). -/
def dotQ (a b : List ℚ) : ℚ := (List.zipWith (fun u v => u * v) a b).sum

/-- Sum of squared deviations from the mean. -/
def sumSqDev (xs : List ℚ) : ℚ := ((centered xs).map (fun v => v ^ 2)).sum

/-- `np.var(xs, ddof=1)`: Bessel-corrected sample variance. -/
def sampleVar (xs : List ℚ) : ℚ := sumSqDev xs / ((xs.length : ℚ) - 1)

/-- `np.isclose(a, 0.0)`: `|a - 0| ≤ atol + rtol * |0| = atol = 1e-8`. -/
def isCloseToZero (a : ℚ) : Bool := |a| ≤ 1 / 100000000

/-- `scipy.stats.pearsonr` on 1-D inputs with `n ≥ 2` and nonzero variance:
the Pearson coefficient `r = Σ(x-x̄)(y-ȳ) / (‖x-x̄‖·‖y-ȳ‖)`, clipped to
`[-1, 1]` (SciPy clips to guard against floating-point overshoot; its internal
fast path for `n == 2` agrees with this formula in exact arithmetic). -/
noncomputable def pearsonr (x y : List ℚ) : ℝ :=
  let num : ℝ := ((dotQ (centered x) (centered y) : ℚ) : ℝ)
  let den : ℝ := Real.sqrt ((sumSqDev x : ℚ) : ℝ) * Real.sqrt ((sumSqDev y : ℚ) : ℝ)
  max (min (num / den) 1) (-1)

/-- The Pearson product-moment coefficient exactly as the spec's §4.1 words it:
sample covariance of `(x, y)` (Bessel-corrected, divisor N−1) divided by the
product of the sample standard deviations.  Written from the spec, to be
compared with `pearsonr`/`correlation` taken from the code. -/
noncomputable def specPearson (x y : List ℚ) : ℝ :=
  ((dotQ (centered x) (centered y) / ((x.length : ℚ) - 1) : ℚ) : ℝ) /
    (Real.sqrt ((sampleVar x : ℚ) : ℝ) * Real.sqrt ((sampleVar y : ℚ) : ℝ))

/-- `correlation` from `analysis.py`: raises `ValueError` on a length mismatch,
returns NaN (modelled `none`) when `n < 2` or either sample variance is close
to zero, and otherwise delegates to `scipy.stats.pearsonr`. -/
noncomputable def correlation (first second : List ℚ) : Except String (Option ℝ) :=
  if first.length ≠ second.length then
    .error "correlation requires arrays of equal length"
  else if first.length < 2 then
    .ok none
  else if isCloseToZero (sampleVar first) || isCloseToZero (sampleVar second) then
    .ok none
  else
    .ok (some (pearsonr first second))

/-- `close_loop` from `analysis.py`: `np.concatenate((values, [values[0]]))`.
On an empty input `values[0]` raises `IndexError`. -/
def close_loop (values : List ℚ) : Except String (List ℚ) :=
  match values with
  | [] => .error "index 0 is out of bounds for axis 0 with size 0"
  | v :: _ => .ok (values ++ [v])

/-- `polar_angles` from `analysis.py`.  `total = category_count or len(CATEGORIES)`
maps a missing count *and* a zero count (both falsy in Python) to the default
category count; `np.linspace(0, 2π, total, endpoint=False)` raises `ValueError`
for a negative sample count and otherwise yields `i * 2π/total` for
`i < total`; `angles += angles[:1]` appends a copy of the first angle. -/
noncomputable def polar_angles (category_count : Option ℤ) : Except String (List ℝ) :=
  let total : ℤ :=
    match category_count with
    | none => (CATEGORIES.length : ℤ)
    | some c => if c = 0 then (CATEGORIES.length : ℤ) else c
  if total < 0 then
    .error "Number of samples must be non-negative"
  else
    let angles : List ℝ := (List.range total.toNat).map (fun i : ℕ => 2 * Real.pi * i / (total : ℝ))
    .ok (angles ++ angles.take 1)

/-- `np.argmax`: index of the first occurrence of the maximum value
("In case of multiple occurrences of the maximum values, the indices
corresponding to the first occurrence are returned"). -/
def argmaxIdx (xs : List ℚ) : ℕ :=
  match xs.maximum with
  | none => 0
  | some m => xs.indexOf m

/-- `np.argmin`: index of the first occurrence of the minimum value. -/
def argminIdx (xs : List ℚ) : ℕ :=
  match xs.minimum with
  | none => 0
  | some m => xs.indexOf m

/-- `(person_a.giving + person_b.receiving) / 2` from `build_explanation`. -/
def sharedScore (a b : PersonProfile) : List ℚ :=
  List.zipWith (fun g r => (g + r) / 2) a.giving b.receiving

/-- `np.abs(person_a.giving - person_b.receiving)` from `build_explanation`. -/
def diffScore (a b : PersonProfile) : List ℚ :=
  List.zipWith (fun g r => |g - r|) a.giving b.receiving

/-- Round to the nearest integer, ties to even: the rounding CPython's
`float.__format__(".2f")` applies to the (exact) scaled value. -/
def roundHalfEven (q : ℚ) : ℤ :=
  let f := ⌊q⌋
  let frac := q - f
  if frac < 1 / 2 then f
  else if 1 / 2 < frac then f + 1
  else if f % 2 = 0 then f else f + 1

/-- `f"{value:.2f}"`: fixed-point rendering with two digits after the point;
a strictly negative value keeps its sign even when the magnitude rounds to
zero (Python prints `-0.00`). -/
def format2 (v : ℚ) : String :=
  let n := roundHalfEven (v * 100)
  let m := n.natAbs
  let sign := if v < 0 then "-" else ""
  let ip := m / 100
  let fp := m % 100
  sign ++ toString ip ++ "." ++ (if fp < 10 then "0" ++ toString fp else toString fp)

/-- The strength-bucket chain from `interpret_correlation`. -/
def strengthOf (v : ℚ) : String :=
  if 0.90 ≤ |v| then "near perfect"
  else if 0.70 ≤ |v| then "strong"
  else if 0.40 ≤ |v| then "moderate"
  else if 0.20 ≤ |v| then "weak"
  else "minimal or mixed"

/-- The direction label from `interpret_correlation`: `value >= 0`. -/
def directionOf (v : ℚ) : String :=
  if 0 ≤ v then "alignment" else "inverse alignment"

/-- `interpret_correlation` from `analysis.py`.  A non-finite coefficient
(`np.isfinite` false, modelled `none`) yields the "undefined" sentence. -/
def interpret_correlation (giver receiver : String) (value : Option ℚ)
    (description : String) : String :=
  match value with
  | none =>
      giver ++ " → " ++ receiver ++ ": r is undefined. " ++
        "Insufficient variation to assess " ++ description ++ "."
  | some v =>
      giver ++ " → " ++ receiver ++ ": r = " ++ format2 v ++ ". " ++
        strengthOf v ++ " " ++ directionOf v ++ " in " ++ description ++ "."

/-- The `summary` list that `build_explanation` assembles before joining:
two directional sentences followed by the three highlight sentences.
Indexing `CATEGORIES[idx]` is total here because the arg-indices of the
length-5 score vectors are below 5 for well-formed profiles. -/
def buildExplanationBlocks (a b : PersonProfile) (corrAB corrBA : Option ℚ) :
    List String :=
  [interpret_correlation a.name b.name corrAB
      "how well what they like to give matches what their partner enjoys receiving",
   interpret_correlation b.name a.name corrBA
      "how well their giving style lands for their partner",
   "\nGreatest shared enthusiasm: " ++ CATEGORIES.getD (argmaxIdx (sharedScore a b)) ""
      ++ " - both of you score high here.",
   "Most aligned expectations: " ++ CATEGORIES.getD (argminIdx (diffScore a b)) ""
      ++ " - your giving and receiving are closest here.",
   "Largest gap: " ++ CATEGORIES.getD (argmaxIdx (diffScore a b)) ""
      ++ " - discuss preferences here to bridge differences."]

/-- `build_explanation` from `analysis.py`: `"\n\n".join(summary)`. -/
def build_explanation (a b : PersonProfile) (corrAB corrBA : Option ℚ) : String :=
  String.intercalate "\n\n" (buildExplanationBlocks a b corrAB corrBA)

/-- `i` is the first index attaining the maximum of `xs`. -/
def FirstArgmaxSpec (xs : List ℚ) (i : ℕ) : Prop :=
  i < xs.length ∧ (∀ j < xs.length, xs.getD j 0 ≤ xs.getD i 0) ∧
    ∀ j < i, xs.getD j 0 < xs.getD i 0

/-- `i` is the first index attaining the minimum of `xs`. -/
def FirstArgminSpec (xs : List ℚ) (i : ℕ) : Prop :=
  i < xs.length ∧ (∀ j < xs.length, xs.getD i 0 ≤ xs.getD j 0) ∧
    ∀ j < i, xs.getD i 0 < xs.getD j 0

/-- Raw per-person payload entry for `io.py`'s `payload_to_profiles`: the
`name` field after `str(...)`, and each vector field as `none` when missing or
not a sequence, otherwise the list of elements, each element `none` when
`float(...)` fails on it and `some q` when it yields the finite float `q`. -/
structure RawPerson where
  name : String
  giving : Option (List (Option ℚ))
  receiving : Option (List (Option ℚ))

/-- Payload for `payload_to_profiles`: each person entry is `none` when the
key is missing or not a dict. -/
structure Payload where
  person_a : Option RawPerson
  person_b : Option RawPerson

/-- The element-coercion loop shared by both importers: convert every element
with `float(...)`, failing at the first non-coercible element. -/
def allFloats : List (Option ℚ) → Option (List ℚ)
  | [] => some []
  | none :: _ => none
  | some q :: rest => (allFloats rest).map (fun t => q :: t)

/-- `_coerce_values` from `io.py`: rejects non-sequences, then rejects the
first non-coercible element, then checks the element count, and finally
clamps every value into `[0, 10]` with `np.clip(arr, 0.0, 10.0)`. -/
def coerce_values (values : Option (List (Option ℚ))) (person_id key : String) :
    Except String (List ℚ) :=
  match values with
  | none => .error (person_id ++ "." ++ key ++ " must be a sequence")
  | some vs =>
    match allFloats vs with
    | none => .error (person_id ++ "." ++ key ++ " contains non-numeric values")
    | some numeric =>
      if numeric.length ≠ CATEGORIES.length then
        .error (person_id ++ "." ++ key ++ " must contain 5 values")
      else
        .ok (numeric.map (fun v => min (max v 0) 10))

/-- `payload_to_profiles` from `io.py`: processes `person_a` fully, then
`person_b`, building each `PersonProfile` from the coerced vectors. -/
def payload_to_profiles (p : Payload) : Except String (PersonProfile × PersonProfile) :=
  match p.person_a with
  | none => .error "Missing profile data for person_a"
  | some ra =>
    match coerce_values ra.giving "person_a" "giving" with
    | .error e => .error e
    | .ok ga =>
      match coerce_values ra.receiving "person_a" "receiving" with
      | .error e => .error e
      | .ok rcva =>
        match p.person_b with
        | none => .error "Missing profile data for person_b"
        | some rb =>
          match coerce_values rb.giving "person_b" "giving" with
          | .error e => .error e
          | .ok gb =>
            match coerce_values rb.receiving "person_b" "receiving" with
            | .error e => .error e
            | .ok rcvb =>
              .ok (⟨ra.name, ga, rcva⟩, ⟨rb.name, gb, rcvb⟩)

/-- `_extract_values` from `profile_io.py`: rejects non-list values, then a
failing `np.asarray(..., dtype=float)` conversion, then a wrong element count,
then out-of-range values (the `isfinite` guard never fires in this model
because every modelled element is a finite rational). -/
def extract_values (raw : Option (List (Option ℚ))) (key : String) :
    Except String (List ℚ) :=
  match raw with
  | none => .error ("'" ++ key ++ "' must be a list of numbers")
  | some vs =>
    match allFloats vs with
    | none => .error "could not convert input to float"
    | some arr =>
      if arr.length ≠ CATEGORIES.length then
        .error ("'" ++ key ++ "' must contain 5 numeric values")
      else if arr.any (fun v => decide (v < 0) || decide (10 < v)) then
        .error ("'" ++ key ++ "' values must be between 0 and 10")
      else
        .ok arr

/-! ### Claim C3: length mismatch -/

/-- C3: for every pair of numeric inputs of different lengths, `correlation`
fails with the `InvalidInput` error (`ValueError` in the source) and never
returns a result, so it neither truncates nor pads either input. -/
theorem correlation_length_mismatch (x y : List ℚ) (h : x.length ≠ y.length) :
    correlation x y = .error "correlation requires arrays of equal length" ∧
      ∀ r, correlation x y ≠ .ok r := by
  have he : correlation x y = .error "correlation requires arrays of equal length" := by
    unfold correlation
    rw [if_pos h]
  exact ⟨he, fun r hr => by rw [he] at hr; cases hr⟩

/-- Concrete instance of `correlation_length_mismatch` at `x = [1]`, `y = []`. -/
theorem correlation_length_mismatch_witness :
    (([1] : List ℚ).length ≠ ([] : List ℚ).length) ∧
      (correlation [1] [] = .error "correlation requires arrays of equal length" ∧
        ∀ r, correlation [1] [] ≠ .ok r) :=
  ⟨by decide, correlation_length_mismatch [1] [] (by decide)⟩

/-! ### Claim C4: close_loop -/

/-- C4: on a non-empty input `close_loop` returns the input with its first
element appended (one element longer, otherwise unchanged); on the empty
input it fails with an error (`IndexError` in the source). -/
theorem close_loop_spec (vs : List ℚ) :
    (∀ h : vs ≠ [], close_loop vs = .ok (vs ++ [vs.head h]) ∧
        (vs ++ [vs.head h]).length = vs.length + 1) ∧
    (vs = [] → ∃ e, close_loop vs = .error e) := by
  constructor
  · intro h
    match vs with
    | v :: t => exact ⟨rfl, by simp⟩
  · rintro rfl
    exact ⟨_, rfl⟩

/-- Concrete instance of `close_loop_spec`: `close_loop [1,2,3] = [1,2,3,1]`. -/
theorem close_loop_spec_witness :
    (([1, 2, 3] : List ℚ) ≠ []) ∧ close_loop [1, 2, 3] = .ok [1, 2, 3, 1] := by
  have h := (close_loop_spec [1, 2, 3]).1 (by simp)
  exact ⟨by simp, by simpa using h.1⟩

/-! ### Claim C6: five blocks in fixed order -/

/-- C6: for every pair of profiles and every pair of coefficient values
(including the undefined sentinel `none`), `build_explanation` is the
blank-line-separated join of exactly 5 sentence blocks in the fixed order:
direction A→B, direction B→A, greatest shared enthusiasm, most aligned
expectations, largest gap. -/
theorem build_explanation_five_blocks (a b : PersonProfile) (cab cba : Option ℚ) :
    (buildExplanationBlocks a b cab cba).length = 5 ∧
    build_explanation a b cab cba =
      String.intercalate "\n\n" (buildExplanationBlocks a b cab cba) ∧
    buildExplanationBlocks a b cab cba =
      [interpret_correlation a.name b.name cab
          "how well what they like to give matches what their partner enjoys receiving",
       interpret_correlation b.name a.name cba
          "how well their giving style lands for their partner",
       "\nGreatest shared enthusiasm: " ++ CATEGORIES.getD (argmaxIdx (sharedScore a b)) ""
          ++ " - both of you score high here.",
       "Most aligned expectations: " ++ CATEGORIES.getD (argminIdx (diffScore a b)) ""
          ++ " - your giving and receiving are closest here.",
       "Largest gap: " ++ CATEGORIES.getD (argmaxIdx (diffScore a b)) ""
          ++ " - discuss preferences here to bridge differences."] :=
  ⟨rfl, rfl, rfl⟩

/-! ### Claim C2: polar_angles on counts below 1 -/

/-- C2 counterexample: at the concrete input `count = 0` (which is `< 1`),
`polar_angles` does not fail: Python's `category_count or len(CATEGORIES)`
treats the falsy `0` like a missing count, so the call succeeds exactly as a
call with no count does, returning the 6 angles of the default 5-category
layout. -/
theorem polar_angles_zero_returns :
    (polar_angles (some 0)).isOk = true ∧
      polar_angles (some 0) = polar_angles none := by
  constructor
  · unfold polar_angles
    norm_num [CATEGORIES, Except.isOk]
    rfl
  · rfl

/-- C2 amended: for every strictly negative count, `polar_angles` fails with
an error (`np.linspace` rejects a negative sample count). -/
theorem polar_angles_neg_fails (c : ℤ) (hc : c < 0) :
    polar_angles (some c) = .error "Number of samples must be non-negative" := by
  have hne : c ≠ 0 := by omega
  unfold polar_angles
  simp only [hne, if_false]
  rw [if_pos hc]

/-- Concrete instance of `polar_angles_neg_fails` at `count = -1`. -/
theorem polar_angles_neg_fails_witness :
    ((-1 : ℤ) < 0) ∧
      polar_angles (some (-1)) = .error "Number of samples must be non-negative" :=
  ⟨by decide, polar_angles_neg_fails (-1) (by decide)⟩

/-! ### Claim C5: polar_angles on positive counts -/

/-- C5: for every positive count `c`, `polar_angles` returns `c + 1` angles:
the `c` angles `2π·i/c` (evenly spaced, strictly ascending, starting at 0,
all in `[0, 2π)`) followed by a copy of the first angle (which is 0). -/
theorem polar_angles_pos (c : ℤ) (hc : 0 < c) :
    polar_angles (some c) =
      .ok (((List.range c.toNat).map fun i : ℕ => 2 * Real.pi * i / (c : ℝ)) ++ [0]) ∧
    (((List.range c.toNat).map fun i : ℕ => 2 * Real.pi * i / (c : ℝ)) ++ [0]).length
        = c.toNat + 1 ∧
    List.Pairwise (· < ·)
      ((List.range c.toNat).map fun i : ℕ => 2 * Real.pi * i / (c : ℝ)) ∧
    (∀ a ∈ (List.range c.toNat).map fun i : ℕ => 2 * Real.pi * i / (c : ℝ),
        0 ≤ a ∧ a < 2 * Real.pi) ∧
    ((List.range c.toNat).map fun i : ℕ => 2 * Real.pi * i / (c : ℝ)).head? = some 0 := by
  have hne : c ≠ 0 := hc.ne'
  have hc0 : ¬(c < 0) := by omega
  have hcR : (0 : ℝ) < (c : ℝ) := by exact_mod_cast hc
  have htwopi : (0 : ℝ) < 2 * Real.pi := by positivity
  obtain ⟨m, hm⟩ : ∃ m, c.toNat = m + 1 := ⟨c.toNat - 1, by omega⟩
  refine ⟨?_, by simp, ?_, ?_, ?_⟩
  · unfold polar_angles
    simp only [hne, if_false, if_neg hc0, hm, List.range_succ_eq_map, List.map_cons,
      List.take_succ_cons, List.take_zero]
    norm_num
  · refine List.Pairwise.map _ (fun i j hij => ?_) (List.pairwise_lt_range c.toNat)
    have hij' : (i : ℝ) < (j : ℝ) := by exact_mod_cast hij
    exact (div_lt_div_iff_of_pos_right hcR).mpr (mul_lt_mul_of_pos_left hij' htwopi)
  · intro a ha
    obtain ⟨i, hi, rfl⟩ := List.mem_map.mp ha
    rw [List.mem_range] at hi
    have hiR : (i : ℝ) < (c : ℝ) := by
      have h1 : (i : ℤ) < c := by omega
      exact_mod_cast h1
    constructor
    · exact div_nonneg (by positivity) hcR.le
    · rw [div_lt_iff₀ hcR]
      exact mul_lt_mul_of_pos_left hiR htwopi
  · rw [hm, List.range_succ_eq_map]
    simp

/-- Concrete instance of `polar_angles_pos` at `count = 4`: the five angles
`[0, π/2, π, 3π/2, 0]`. -/
theorem polar_angles_pos_witness :
    ((0 : ℤ) < 4) ∧
      polar_angles (some 4) = .ok [0, Real.pi / 2, Real.pi, 3 * Real.pi / 2, 0] := by
  refine ⟨by norm_num, ?_⟩
  have h := (polar_angles_pos 4 (by norm_num)).1
  rw [h]
  have h4 : (4 : ℤ).toNat = 4 := rfl
  rw [h4]
  norm_num [List.range_succ]
  refine ⟨by ring, by ring, by ring⟩

/-! ### Claim C8: interpretation buckets -/

/-- The half-even rounding used by `format2` lands within half a unit of the
exact scaled value. -/
theorem roundHalfEven_close (q : ℚ) : |q - (roundHalfEven q : ℚ)| ≤ 1 / 2 := by
  have h1 : (⌊q⌋ : ℚ) ≤ q := Int.floor_le q
  have h2 : q < ⌊q⌋ + 1 := Int.lt_floor_add_one q
  have h3 : ((⌊q⌋ + 1 : ℤ) : ℚ) = (⌊q⌋ : ℚ) + 1 := by push_cast; ring
  simp only [roundHalfEven]
  split_ifs with ha hb hc
  · rw [abs_le]
    constructor <;> linarith
  · rw [abs_le, h3]
    constructor <;> linarith
  · rw [abs_le]
    constructor <;> linarith
  · rw [abs_le, h3]
    constructor <;> linarith

/-- C8: the directional sentence is built from fixed non-overlapping strength
buckets on `|r|` (with the undefined sentinel mapped to the
"undefined / insufficient variation" sentence rather than a crash), the
direction label is "alignment" iff the signed coefficient is ≥ 0, and the
numeric coefficient is rendered to 2 decimal places (the rendered integer is
within half a hundredth of the exact value). -/
theorem interpret_correlation_spec (giver receiver description : String) (v : ℚ) :
    interpret_correlation giver receiver none description =
      giver ++ " → " ++ receiver ++ ": r is undefined. " ++
        "Insufficient variation to assess " ++ description ++ "." ∧
    (|v| < 0.20 → strengthOf v = "minimal or mixed") ∧
    (0.20 ≤ |v| → |v| < 0.40 → strengthOf v = "weak") ∧
    (0.40 ≤ |v| → |v| < 0.70 → strengthOf v = "moderate") ∧
    (0.70 ≤ |v| → |v| < 0.90 → strengthOf v = "strong") ∧
    (0.90 ≤ |v| → strengthOf v = "near perfect") ∧
    (0 ≤ v → directionOf v = "alignment") ∧
    (v < 0 → directionOf v = "inverse alignment") ∧
    |v * 100 - (roundHalfEven (v * 100) : ℚ)| ≤ 1 / 2 ∧
    interpret_correlation giver receiver (some v) description =
      giver ++ " → " ++ receiver ++ ": r = " ++ format2 v ++ ". " ++
        strengthOf v ++ " " ++ directionOf v ++ " in " ++ description ++ "." := by
  refine ⟨rfl, ?_, ?_, ?_, ?_, ?_, ?_, ?_, roundHalfEven_close (v * 100), rfl⟩
  · intro h
    unfold strengthOf
    rw [if_neg (not_le.mpr (by linarith)), if_neg (not_le.mpr (by linarith)),
      if_neg (not_le.mpr (by linarith)), if_neg (not_le.mpr (by linarith))]
  · intro h1 h2
    unfold strengthOf
    rw [if_neg (not_le.mpr (by linarith)), if_neg (not_le.mpr (by linarith)),
      if_neg (not_le.mpr (by linarith)), if_pos h1]
  · intro h1 h2
    unfold strengthOf
    rw [if_neg (not_le.mpr (by linarith)), if_neg (not_le.mpr (by linarith)), if_pos h1]
  · intro h1 h2
    unfold strengthOf
    rw [if_neg (not_le.mpr (by linarith)), if_pos h1]
  · intro h
    unfold strengthOf
    rw [if_pos h]
  · intro h
    unfold directionOf
    rw [if_pos h]
  · intro h
    unfold directionOf
    rw [if_neg (not_le.mpr h)]

/-- Concrete instance of `interpret_correlation_spec` at `v = -1/2`:
a moderate inverse alignment. -/
theorem interpret_correlation_spec_witness :
    ((0.40 : ℚ) ≤ |(-(1/2) : ℚ)|) ∧ (|(-(1/2) : ℚ)| < 0.70) ∧ ((-(1/2) : ℚ) < 0) ∧
      strengthOf (-(1/2)) = "moderate" ∧ directionOf (-(1/2)) = "inverse alignment" := by
  have h := interpret_correlation_spec "A" "B" "d" (-(1/2))
  have habs : |(-(1/2) : ℚ)| = 1/2 := by
    rw [abs_of_nonpos (by norm_num)]
    norm_num
  exact ⟨by rw [habs]; norm_num, by rw [habs]; norm_num, by norm_num,
    h.2.2.2.1 (by rw [habs]; norm_num) (by rw [habs]; norm_num),
    h.2.2.2.2.2.2.2.1 (by norm_num)⟩

/-! ### Claim C7: highlight index selection -/

/-- Entries strictly before the first occurrence of `a` differ from `a`. -/
theorem lt_indexOf_ne (l : List ℚ) (a : ℚ) :
    ∀ (j : ℕ) (hj : j < l.length), j < l.indexOf a → l[j] ≠ a := by
  induction l with
  | nil => intro j hj; simp at hj
  | cons b t ih =>
    intro j hj hlt
    by_cases hba : b = a
    · subst hba
      rw [List.indexOf_cons_self] at hlt
      exact absurd hlt (Nat.not_lt_zero j)
    · rw [List.indexOf_cons_ne _ hba] at hlt
      cases j with
      | zero => simpa using hba
      | succ k =>
        have hk : k < t.length := by simpa using hj
        have hk2 : k < t.indexOf a := Nat.lt_of_succ_lt_succ hlt
        simpa using ih k hk hk2

/-- `argmaxIdx` picks the first index attaining the maximum. -/
theorem argmaxIdx_firstSpec (xs : List ℚ) (h : xs ≠ []) :
    FirstArgmaxSpec xs (argmaxIdx xs) := by
  obtain ⟨m, hmax⟩ : ∃ m : ℚ, xs.maximum = (m : WithBot ℚ) := by
    cases hx : xs.maximum with
    | bot => exact absurd (List.maximum_eq_bot.mp hx) h
    | coe m => exact ⟨m, rfl⟩
  have hmem : m ∈ xs := List.maximum_mem hmax
  have hidx : xs.indexOf m < xs.length := List.indexOf_lt_length.mpr hmem
  have hget : xs[xs.indexOf m] = m := List.getElem_indexOf hidx
  have hargmax : argmaxIdx xs = xs.indexOf m := by
    unfold argmaxIdx
    rw [hmax]
  rw [FirstArgmaxSpec, hargmax]
  refine ⟨hidx, ?_, ?_⟩
  · intro j hj
    rw [List.getD_eq_getElem xs 0 hj, List.getD_eq_getElem xs 0 hidx, hget]
    exact List.le_maximum_of_mem (List.getElem_mem hj) hmax
  · intro j hjlt
    have hj : j < xs.length := hjlt.trans hidx
    have hne := lt_indexOf_ne xs m j hj hjlt
    have hle : xs[j] ≤ m := List.le_maximum_of_mem (List.getElem_mem hj) hmax
    rw [List.getD_eq_getElem xs 0 hj, List.getD_eq_getElem xs 0 hidx, hget]
    exact lt_of_le_of_ne hle hne

/-- `argminIdx` picks the first index attaining the minimum. -/
theorem argminIdx_firstSpec (xs : List ℚ) (h : xs ≠ []) :
    FirstArgminSpec xs (argminIdx xs) := by
  obtain ⟨m, hmin⟩ : ∃ m : ℚ, xs.minimum = (m : WithTop ℚ) := by
    cases hx : xs.minimum with
    | top => exact absurd (List.minimum_eq_top.mp hx) h
    | coe m => exact ⟨m, rfl⟩
  have hmem : m ∈ xs := List.minimum_mem hmin
  have hidx : xs.indexOf m < xs.length := List.indexOf_lt_length.mpr hmem
  have hget : xs[xs.indexOf m] = m := List.getElem_indexOf hidx
  have hargmin : argminIdx xs = xs.indexOf m := by
    unfold argminIdx
    rw [hmin]
  rw [FirstArgminSpec, hargmin]
  refine ⟨hidx, ?_, ?_⟩
  · intro j hj
    rw [List.getD_eq_getElem xs 0 hj, List.getD_eq_getElem xs 0 hidx, hget]
    exact List.minimum_le_of_mem (List.getElem_mem hj) hmin
  · intro j hjlt
    have hj : j < xs.length := hjlt.trans hidx
    have hne := lt_indexOf_ne xs m j hj hjlt
    have hle : m ≤ xs[j] := List.minimum_le_of_mem (List.getElem_mem hj) hmin
    rw [List.getD_eq_getElem xs 0 hj, List.getD_eq_getElem xs 0 hidx, hget]
    exact lt_of_le_of_ne hle (fun he => hne he.symm)

/-- `getD` of a zipped list is the zip function applied to the `getD`s. -/
theorem getD_zipWith (f : ℚ → ℚ → ℚ) (xs ys : List ℚ) (j : ℕ)
    (hj : j < (List.zipWith f xs ys).length) :
    (List.zipWith f xs ys).getD j 0 = f (xs.getD j 0) (ys.getD j 0) := by
  have hx : j < xs.length := by
    rw [List.length_zipWith] at hj
    omega
  have hy : j < ys.length := by
    rw [List.length_zipWith] at hj
    omega
  rw [List.getD_eq_getElem _ 0 hj, List.getD_eq_getElem xs 0 hx, List.getD_eq_getElem ys 0 hy]
  exact List.getElem_zipWith

/-- C7: the three highlight indices of `build_explanation` are chosen from
A's giving vector and B's receiving vector: greatest shared enthusiasm is the
first index maximizing `(A.giving[i] + B.receiving[i]) / 2`, most aligned
expectations the first index minimizing `|A.giving[i] − B.receiving[i]|`, and
largest gap the first index maximizing that absolute difference — every tie
broken by the lowest index. -/
theorem highlight_indices_first_extrema (a b : PersonProfile)
    (hlen : a.giving.length = b.receiving.length) (hne : a.giving ≠ []) :
    FirstArgmaxSpec (sharedScore a b) (argmaxIdx (sharedScore a b)) ∧
    FirstArgminSpec (diffScore a b) (argminIdx (diffScore a b)) ∧
    FirstArgmaxSpec (diffScore a b) (argmaxIdx (diffScore a b)) ∧
    (∀ j, j < (sharedScore a b).length →
        (sharedScore a b).getD j 0 = (a.giving.getD j 0 + b.receiving.getD j 0) / 2) ∧
    (∀ j, j < (diffScore a b).length →
        (diffScore a b).getD j 0 = |a.giving.getD j 0 - b.receiving.getD j 0|) := by
  have hlen_s : (sharedScore a b).length = a.giving.length := by
    simp [sharedScore, List.length_zipWith, hlen]
  have hlen_d : (diffScore a b).length = a.giving.length := by
    simp [diffScore, List.length_zipWith, hlen]
  have hpos : 0 < a.giving.length := List.length_pos.mpr hne
  have hs : sharedScore a b ≠ [] := by
    rw [← List.length_pos, hlen_s]
    exact hpos
  have hd : diffScore a b ≠ [] := by
    rw [← List.length_pos, hlen_d]
    exact hpos
  refine ⟨argmaxIdx_firstSpec _ hs, argminIdx_firstSpec _ hd, argmaxIdx_firstSpec _ hd,
    ?_, ?_⟩
  · intro j hj
    exact getD_zipWith _ _ _ j hj
  · intro j hj
    exact getD_zipWith _ _ _ j hj

/-- Concrete profile from the spec's §8 test scenario (giving vector
`[8,2,5,9,1]`). -/
def profileA : PersonProfile := ⟨"Alex", [8, 2, 5, 9, 1], [0, 0, 0, 0, 0]⟩

/-- Concrete partner profile (receiving vector `[7,3,4,8,2]`, which ties all
five absolute differences at 1). -/
def profileB : PersonProfile := ⟨"Blake", [0, 0, 0, 0, 0], [7, 3, 4, 8, 2]⟩

/-- Concrete instance of `highlight_indices_first_extrema` on the spec's §8
profiles; the diff vector is all-ties, exercising lowest-index tie-breaking. -/
theorem highlight_indices_first_extrema_witness :
    profileA.giving.length = profileB.receiving.length ∧ profileA.giving ≠ [] ∧
    FirstArgmaxSpec (sharedScore profileA profileB)
      (argmaxIdx (sharedScore profileA profileB)) ∧
    FirstArgminSpec (diffScore profileA profileB)
      (argminIdx (diffScore profileA profileB)) ∧
    FirstArgmaxSpec (diffScore profileA profileB)
      (argmaxIdx (diffScore profileA profileB)) := by
  have h := highlight_indices_first_extrema profileA profileB rfl (by simp [profileA])
  exact ⟨rfl, by simp [profileA], h.1, h.2.1, h.2.2.1⟩

/-! ### Claim C10: clamping vs rejection of out-of-range profile values -/

/-- Coercion over a list of already-successful elements returns the list. -/
theorem allFloats_map_some (ws : List ℚ) : allFloats (ws.map some) = some ws := by
  induction ws with
  | nil => rfl
  | cons w t ih => simp [allFloats, ih]

/-- C10: `payload_to_profiles` (io.py) does not fail on out-of-range numeric
values: every numeric length-5 vector is accepted and silently clamped into
`[0, 10]` — even when some value lies outside `[0, 10]` — whereas
`_extract_values` (profile_io.py) rejects the same out-of-range vector with an
error. -/
theorem payload_clamps_out_of_range
    (na nb : String) (ga ra gb rb : List ℚ)
    (hga : ga.length = 5) (hra : ra.length = 5) (hgb : gb.length = 5) (hrb : rb.length = 5)
    (v : ℚ) (hv : v ∈ ga) (hout : v < 0 ∨ 10 < v) :
    payload_to_profiles
        ⟨some ⟨na, some (ga.map some), some (ra.map some)⟩,
         some ⟨nb, some (gb.map some), some (rb.map some)⟩⟩
      = .ok (⟨na, ga.map (fun w => min (max w 0) 10), ra.map (fun w => min (max w 0) 10)⟩,
             ⟨nb, gb.map (fun w => min (max w 0) 10), rb.map (fun w => min (max w 0) 10)⟩) ∧
    (∀ ws : List ℚ, ws.length = 5 →
        coerce_values (some (ws.map some)) na "giving"
          = .ok (ws.map fun w => min (max w 0) 10)) ∧
    extract_values (some (ga.map some)) "giving" =
      .error "'giving' values must be between 0 and 10" := by
  have hco : ∀ (ws : List ℚ), ws.length = 5 → ∀ pid key : String,
      coerce_values (some (ws.map some)) pid key
        = .ok (ws.map fun w => min (max w 0) 10) := by
    intro ws hl pid key
    simp [coerce_values, allFloats_map_some, hl, CATEGORIES]
  refine ⟨?_, fun ws hl => hco ws hl na "giving", ?_⟩
  · simp only [payload_to_profiles]
    rw [hco ga hga "person_a" "giving", hco ra hra "person_a" "receiving",
      hco gb hgb "person_b" "giving", hco rb hrb "person_b" "receiving"]
  · have hanyP : ∃ x ∈ ga, x < 0 ∨ 10 < x := ⟨v, hv, hout⟩
    simp [extract_values, allFloats_map_some, hga, CATEGORIES, hanyP]

/-- Concrete instance of `payload_clamps_out_of_range`: the value 11 in a
giving vector is clamped to 10 by io.py but rejected by profile_io.py. -/
theorem payload_clamps_out_of_range_witness :
    (([11, 0, 3, 4, 5] : List ℚ).length = 5) ∧ ((11 : ℚ) ∈ ([11, 0, 3, 4, 5] : List ℚ)) ∧
      ((11 : ℚ) < 0 ∨ (10 : ℚ) < 11) ∧
      payload_to_profiles
          ⟨some ⟨"A", some (([11, 0, 3, 4, 5] : List ℚ).map some),
                 some (([1, 2, 3, 4, 5] : List ℚ).map some)⟩,
           some ⟨"B", some (([1, 2, 3, 4, 5] : List ℚ).map some),
                 some (([1, 2, 3, 4, 5] : List ℚ).map some)⟩⟩
        = .ok (⟨"A", ([11, 0, 3, 4, 5] : List ℚ).map (fun w => min (max w 0) 10),
                ([1, 2, 3, 4, 5] : List ℚ).map (fun w => min (max w 0) 10)⟩,
               ⟨"B", ([1, 2, 3, 4, 5] : List ℚ).map (fun w => min (max w 0) 10),
                ([1, 2, 3, 4, 5] : List ℚ).map (fun w => min (max w 0) 10)⟩) ∧
      extract_values (some (([11, 0, 3, 4, 5] : List ℚ).map some)) "giving" =
        .error "'giving' values must be between 0 and 10" := by
  have h := payload_clamps_out_of_range "A" "B" [11, 0, 3, 4, 5] [1, 2, 3, 4, 5]
    [1, 2, 3, 4, 5] [1, 2, 3, 4, 5] rfl rfl rfl rfl 11 (by simp) (Or.inr (by norm_num))
  exact ⟨rfl, by simp, Or.inr (by norm_num), h.1, h.2.2⟩

/-! ### Correlation machinery for claims C1 and C9 -/

/-- A sum of squares is nonnegative. -/
theorem sum_sq_nonneg (xs : List ℚ) : 0 ≤ (xs.map (fun v => v ^ 2)).sum := by
  refine List.sum_nonneg ?_
  intro a ha
  obtain ⟨b, _, rfl⟩ := List.mem_map.mp ha
  positivity

/-- The sum of squared deviations is nonnegative. -/
theorem sumSqDev_nonneg (xs : List ℚ) : 0 ≤ sumSqDev xs := by
  unfold sumSqDev
  exact sum_sq_nonneg (centered xs)

/-- Unfolding `dotQ` over cons cells. -/
theorem dotQ_cons (u w : ℚ) (us ws : List ℚ) :
    dotQ (u :: us) (w :: ws) = u * w + dotQ us ws := by
  simp [dotQ]

/-- `dotQ` is symmetric. -/
theorem dotQ_comm (a : List ℚ) : ∀ b : List ℚ, dotQ a b = dotQ b a := by
  induction a with
  | nil => intro b; cases b <;> simp [dotQ]
  | cons u us ih =>
    intro b
    cases b with
    | nil => simp [dotQ]
    | cons w ws => rw [dotQ_cons, dotQ_cons, ih ws, mul_comm]

/-- Expansion of the quadratic `Σ (aᵢ + t·bᵢ)²` in `t`. -/
theorem sum_sq_add_smul (t : ℚ) : ∀ (a b : List ℚ), a.length = b.length →
    (List.zipWith (fun u w => (u + t * w) ^ 2) a b).sum
      = (a.map (fun v => v ^ 2)).sum + 2 * t * dotQ a b
        + t ^ 2 * (b.map (fun v => v ^ 2)).sum := by
  intro a
  induction a with
  | nil =>
    intro b hb
    cases b with
    | nil => simp [dotQ]
    | cons w ws => simp at hb
  | cons u us ih =>
    intro b hb
    cases b with
    | nil => simp at hb
    | cons w ws =>
      have h' : us.length = ws.length := by simpa using hb
      simp only [List.zipWith_cons_cons, List.sum_cons, List.map_cons, dotQ_cons]
      rw [ih ws h']
      ring

/-- The quadratic `Σ (aᵢ + t·bᵢ)²` is nonnegative. -/
theorem zip_sq_sum_nonneg (t : ℚ) : ∀ (a b : List ℚ),
    0 ≤ (List.zipWith (fun u w => (u + t * w) ^ 2) a b).sum := by
  intro a
  induction a with
  | nil => intro b; simp
  | cons u us ih =>
    intro b
    cases b with
    | nil => simp
    | cons w ws =>
      simp only [List.zipWith_cons_cons, List.sum_cons]
      exact add_nonneg (sq_nonneg _) (ih ws)

/-- Cauchy–Schwarz for equal-length rational vectors. -/
theorem dotQ_sq_le (a b : List ℚ) (h : a.length = b.length) :
    dotQ a b ^ 2 ≤ (a.map (fun v => v ^ 2)).sum * (b.map (fun v => v ^ 2)).sum := by
  set A := (a.map (fun v => v ^ 2)).sum with hA
  set B := (b.map (fun v => v ^ 2)).sum with hB
  set D := dotQ a b with hD
  have hBnn : 0 ≤ B := sum_sq_nonneg b
  have key : ∀ t : ℚ, 0 ≤ A + 2 * t * D + t ^ 2 * B := by
    intro t
    have h1 := zip_sq_sum_nonneg t a b
    rwa [sum_sq_add_smul t a b h] at h1
  rcases lt_or_eq_of_le hBnn with hBpos | hB0
  · have h2 := key (-(D / B))
    have hB' : B ≠ 0 := ne_of_gt hBpos
    have h3 : A + 2 * (-(D / B)) * D + (-(D / B)) ^ 2 * B = A - D ^ 2 / B := by
      field_simp
      ring
    rw [h3] at h2
    have h4 : D ^ 2 / B ≤ A := by linarith
    calc D ^ 2 = D ^ 2 / B * B := by field_simp
      _ ≤ A * B := mul_le_mul_of_nonneg_right h4 hBpos.le
  · have hD0 : D = 0 := by
      by_contra hDne
      have h2 := key (-(A + 1) / (2 * D))
      rw [← hB0] at h2
      have h3 : A + 2 * (-(A + 1) / (2 * D)) * D + (-(A + 1) / (2 * D)) ^ 2 * 0 = -1 := by
        field_simp
        ring
      rw [h3] at h2
      linarith
    rw [hD0, ← hB0]
    norm_num

/-- A sample variance that `np.isclose` does not flag as zero is backed by a
strictly positive sum of squared deviations. -/
theorem var_not_close_pos (x : List ℚ) (h : isCloseToZero (sampleVar x) = false) :
    0 < sumSqDev x := by
  have hnn : 0 ≤ sumSqDev x := sumSqDev_nonneg x
  rcases eq_or_lt_of_le hnn with h0 | hpos
  · exfalso
    have hz : sampleVar x = 0 := by
      unfold sampleVar
      rw [← h0]
      simp
    rw [isCloseToZero, hz] at h
    norm_num at h
  · exact hpos

/-- The spec's Pearson formula (covariance over product of standard
deviations) collapses to the mean-centered dot product over the product of
root sums of squares: the Bessel divisors cancel. -/
theorem specPearson_eq_unclipped (x y : List ℚ) (hlen : x.length = y.length)
    (hn : 2 ≤ x.length) :
    specPearson x y =
      ((dotQ (centered x) (centered y) : ℚ) : ℝ) /
        (Real.sqrt ((sumSqDev x : ℚ) : ℝ) * Real.sqrt ((sumSqDev y : ℚ) : ℝ)) := by
  have hc : (0 : ℝ) < (x.length : ℝ) - 1 := by
    have h2 : (2 : ℝ) ≤ (x.length : ℝ) := by exact_mod_cast hn
    linarith
  have hSx : ((sampleVar x : ℚ) : ℝ)
      = ((sumSqDev x : ℚ) : ℝ) / ((x.length : ℝ) - 1) := by
    unfold sampleVar
    push_cast
    ring
  have hSy : ((sampleVar y : ℚ) : ℝ)
      = ((sumSqDev y : ℚ) : ℝ) / ((x.length : ℝ) - 1) := by
    unfold sampleVar
    rw [← hlen]
    push_cast
    ring
  have hcov : ((dotQ (centered x) (centered y) / ((x.length : ℚ) - 1) : ℚ) : ℝ)
      = ((dotQ (centered x) (centered y) : ℚ) : ℝ) / ((x.length : ℝ) - 1) := by
    push_cast
    ring
  have hxnn : (0 : ℝ) ≤ ((sumSqDev x : ℚ) : ℝ) := by exact_mod_cast sumSqDev_nonneg x
  have hynn : (0 : ℝ) ≤ ((sumSqDev y : ℚ) : ℝ) := by exact_mod_cast sumSqDev_nonneg y
  unfold specPearson
  rw [hcov, hSx, hSy, Real.sqrt_div hxnn, Real.sqrt_div hynn, div_mul_div_comm,
    Real.mul_self_sqrt hc.le, div_div_div_cancel_right₀ (ne_of_gt hc)]

/-- Under the guard conditions of `correlation`, SciPy's clipped quotient is
the plain quotient: Cauchy–Schwarz keeps it inside `[-1, 1]`. -/
theorem pearsonr_eq_unclipped (x y : List ℚ) (hlen : x.length = y.length)
    (hx : 0 < sumSqDev x) (hy : 0 < sumSqDev y) :
    pearsonr x y =
      ((dotQ (centered x) (centered y) : ℚ) : ℝ) /
        (Real.sqrt ((sumSqDev x : ℚ) : ℝ) * Real.sqrt ((sumSqDev y : ℚ) : ℝ)) := by
  have hclen : (centered x).length = (centered y).length := by simp [centered, hlen]
  have hCSq : dotQ (centered x) (centered y) ^ 2 ≤ sumSqDev x * sumSqDev y := by
    have h := dotQ_sq_le (centered x) (centered y) hclen
    unfold sumSqDev
    exact h
  have hSxpos : (0 : ℝ) < ((sumSqDev x : ℚ) : ℝ) := by exact_mod_cast hx
  have hSypos : (0 : ℝ) < ((sumSqDev y : ℚ) : ℝ) := by exact_mod_cast hy
  have hCS : ((dotQ (centered x) (centered y) : ℚ) : ℝ) ^ 2
      ≤ ((sumSqDev x : ℚ) : ℝ) * ((sumSqDev y : ℚ) : ℝ) := by exact_mod_cast hCSq
  have hd : (0 : ℝ) < Real.sqrt ((sumSqDev x : ℚ) : ℝ) * Real.sqrt ((sumSqDev y : ℚ) : ℝ) :=
    mul_pos (Real.sqrt_pos.mpr hSxpos) (Real.sqrt_pos.mpr hSypos)
  have habs : |((dotQ (centered x) (centered y) : ℚ) : ℝ)|
      ≤ Real.sqrt ((sumSqDev x : ℚ) : ℝ) * Real.sqrt ((sumSqDev y : ℚ) : ℝ) := by
    rw [← Real.sqrt_sq_eq_abs, ← Real.sqrt_mul hSxpos.le]
    exact Real.sqrt_le_sqrt hCS
  have habs2 : |((dotQ (centered x) (centered y) : ℚ) : ℝ) /
      (Real.sqrt ((sumSqDev x : ℚ) : ℝ) * Real.sqrt ((sumSqDev y : ℚ) : ℝ))| ≤ 1 := by
    rw [abs_div, abs_of_pos hd]
    exact (div_le_one hd).mpr habs
  obtain ⟨hlb, hub⟩ := abs_le.mp habs2
  unfold pearsonr
  simp only [min_eq_left hub, max_eq_left hlb]

/-! ### Claim C1: correlation result -/

/-- C1: for equal-length inputs, `correlation` returns the undefined sentinel
(`none`) exactly when the input has fewer than 2 elements or either sample
variance is within `np.isclose`'s tolerance of zero; otherwise it returns the
Pearson product-moment coefficient as the spec defines it (`specPearson`). -/
theorem correlation_undefined_iff_pearson (x y : List ℚ) (hlen : x.length = y.length) :
    (correlation x y = .ok none ↔
      x.length < 2 ∨ isCloseToZero (sampleVar x) = true ∨
        isCloseToZero (sampleVar y) = true) ∧
    (2 ≤ x.length → isCloseToZero (sampleVar x) = false →
      isCloseToZero (sampleVar y) = false →
      correlation x y = .ok (some (specPearson x y))) := by
  have hne : ¬(x.length ≠ y.length) := by simpa using hlen
  constructor
  · unfold correlation
    rw [if_neg hne]
    by_cases h2 : x.length < 2
    · simp [h2]
    · rw [if_neg h2]
      cases hvx : isCloseToZero (sampleVar x) <;>
        cases hvy : isCloseToZero (sampleVar y) <;>
        simp [h2, hvx, hvy]
  · intro hn hvx hvy
    have hx := var_not_close_pos x hvx
    have hy' := var_not_close_pos y hvy
    unfold correlation
    rw [if_neg hne, if_neg (by omega : ¬x.length < 2)]
    simp only [hvx, hvy, Bool.or_self, Bool.false_eq_true, if_false]
    rw [pearsonr_eq_unclipped x y hlen hx hy', specPearson_eq_unclipped x y hlen hn]

/-- Concrete instance of `correlation_undefined_iff_pearson` at
`x = [0,1,2]`, `y = [0,1,1]` (equal lengths, both non-constant). -/
theorem correlation_undefined_iff_pearson_witness :
    (([0, 1, 2] : List ℚ).length = ([0, 1, 1] : List ℚ).length) ∧
      2 ≤ ([0, 1, 2] : List ℚ).length ∧
      isCloseToZero (sampleVar [0, 1, 2]) = false ∧
      isCloseToZero (sampleVar [0, 1, 1]) = false ∧
      correlation [0, 1, 2] [0, 1, 1] = .ok (some (specPearson [0, 1, 2] [0, 1, 1])) := by
  have h := correlation_undefined_iff_pearson [0, 1, 2] [0, 1, 1] rfl
  have e1 : sampleVar ([0, 1, 2] : List ℚ) = 1 := by
    norm_num [sampleVar, sumSqDev, centered, mean]
  have e2 : sampleVar ([0, 1, 1] : List ℚ) = 1 / 3 := by
    norm_num [sampleVar, sumSqDev, centered, mean]
  have hvx : isCloseToZero (sampleVar [0, 1, 2]) = false := by
    simp only [isCloseToZero, e1, abs_one]
    norm_num
  have hvy : isCloseToZero (sampleVar [0, 1, 1]) = false := by
    simp only [isCloseToZero, e2]
    rw [abs_of_pos (by norm_num : (0 : ℚ) < 1 / 3)]
    norm_num
  exact ⟨rfl, by norm_num, hvx, hvy, h.2 (by norm_num) hvx hvy⟩

/-! ### Claim C9: symmetry -/

/-- C9: for two distinct, non-constant, equal-length vectors with at least 2
elements, `correlation(x, y) = correlation(y, x)`. -/
theorem correlation_symm (x y : List ℚ) (_hxy : x ≠ y) (hlen : x.length = y.length)
    (_hx2 : 2 ≤ x.length)
    (_hxnc : ∃ a ∈ x, ∃ b ∈ x, a ≠ b) (_hync : ∃ a ∈ y, ∃ b ∈ y, a ≠ b) :
    correlation x y = correlation y x := by
  have hpcomm : pearsonr x y = pearsonr y x := by
    unfold pearsonr
    rw [dotQ_comm (centered x) (centered y),
      mul_comm (Real.sqrt ((sumSqDev x : ℚ) : ℝ)) (Real.sqrt ((sumSqDev y : ℚ) : ℝ))]
  unfold correlation
  rw [hlen, Bool.or_comm (isCloseToZero (sampleVar x)) (isCloseToZero (sampleVar y)),
    hpcomm]

/-- Concrete instance of `correlation_symm` at `x = [0,1,2]`, `y = [5,1,4]`. -/
theorem correlation_symm_witness :
    (([0, 1, 2] : List ℚ) ≠ ([5, 1, 4] : List ℚ)) ∧
      (([0, 1, 2] : List ℚ).length = ([5, 1, 4] : List ℚ).length) ∧
      2 ≤ ([0, 1, 2] : List ℚ).length ∧
      correlation [0, 1, 2] [5, 1, 4] = correlation [5, 1, 4] [0, 1, 2] := by
  have hxnc : ∃ a ∈ ([0, 1, 2] : List ℚ), ∃ b ∈ ([0, 1, 2] : List ℚ), a ≠ b :=
    ⟨0, by norm_num, 1, by norm_num, by norm_num⟩
  have hync : ∃ a ∈ ([5, 1, 4] : List ℚ), ∃ b ∈ ([5, 1, 4] : List ℚ), a ≠ b :=
    ⟨5, by norm_num, 1, by norm_num, by norm_num⟩
  exact ⟨by norm_num, rfl, by norm_num,
    correlation_symm [0, 1, 2] [5, 1, 4] (by norm_num) rfl (by norm_num) hxnc hync⟩
